import Mathlib

/-!
Verification development for the AS/400 output modernizer's ingestion and
column-modernization pipeline.

The Python sources `backend/services/ai_service.py` and
`backend/services/file_service.py` are shallowly embedded below: strings are
Lean `String`s (lists of characters), the small anchored regular expressions of
the source are translated into executable character-level predicates, and the
optional generative (AI) capability is an explicit `Option`-valued parameter
(`none` models the capability being disabled, unavailable, or raising).
Character classes `\w`, `\d`, `\s` of Python's `re` are modelled by their ASCII
parts; every concrete input appearing in a theorem below is ASCII, where the two
agree exactly.
-/

namespace Modernizer

/-! ## Character helpers (ASCII models of Python character classes) -/

/-- ASCII model of Python's whitespace set used by `str.strip`, `str.split()`,
`str.isspace` and the regex class `\s`: space, tab, newline, carriage return,
vertical tab, form feed. -/
def isPySpace (c : Char) : Bool :=
  c == ' ' || c == '\t' || c == '\n' || c == '\r' || c == '\x0b' || c == '\x0c'

/-- ASCII model of the regex class `\w`: letters, digits and underscore. -/
def isWordCharB (c : Char) : Bool :=
  c.isAlpha || c.isDigit || c == '_'

/-- Strip `isPySpace` characters from both ends of a character list
(Python `str.strip()`). -/
def pyStrip (l : List Char) : List Char :=
  ((l.dropWhile isPySpace).reverse.dropWhile isPySpace).reverse

/-- Python `str.strip()` on a `String`. -/
def pyStripS (s : String) : String :=
  String.mk (pyStrip s.data)

/-- Python `str.lower()` (ASCII). -/
def pyLower (s : String) : String :=
  String.mk (s.data.map Char.toLower)

/-- Python `str.upper()` (ASCII). -/
def pyUpper (s : String) : String :=
  String.mk (s.data.map Char.toUpper)

/-- Does `l` contain `sub` as a contiguous sublist?  This is the semantics of
`re.search(".*sub.*", l)` for a literal `sub`. -/
def hasInfix (l sub : List Char) : Bool :=
  sub.isPrefixOf l ||
    (match l with
     | [] => false
     | _ :: t => hasInfix t sub)

/-- Python `str.startswith` with a tuple of alternatives. -/
def startsWithAny (s : String) (ps : List String) : Bool :=
  ps.any (fun p => p.data.isPrefixOf s.data)

/-- Accumulator pass for `splitWs`; `cur` holds the current token reversed. -/
def splitWsGo (cur : List Char) : List Char → List (List Char)
  | [] => if cur.isEmpty then [] else [cur.reverse]
  | c :: rest =>
    if isPySpace c then
      if cur.isEmpty then splitWsGo [] rest else cur.reverse :: splitWsGo [] rest
    else splitWsGo (c :: cur) rest

/-- Python `str.split()` (no argument): split on whitespace runs, dropping
empty tokens. -/
def splitWs (l : List Char) : List (List Char) :=
  splitWsGo [] l

/-- Split on a single separator character, keeping empty fields — the
semantics of Python's `str.split(sep)` and of `String.splitOn` for a
one-character separator. -/
def splitOnChar (delim : Char) : List Char → List (List Char)
  | [] => [[]]
  | c :: rest =>
    let r := splitOnChar delim rest
    if c == delim then [] :: r
    else (c :: r.headD []) :: r.tail

/-- The lines of a string, splitting on newline characters. -/
def pyLines (s : String) : List String :=
  (splitOnChar '\n' s.data).map String.mk

/-! ## `ai_service.AIService._to_snake_case` -/

/-- One left-to-right pass of `re.sub(r'([a-z])([A-Z])', r'\1_\2', s)`:
insert an underscore between a lowercase letter and the uppercase letter that
follows it.  Scanning resumes after the matched pair, which is equivalent to
this two-character window recursion because an uppercase letter can never start
a new match. -/
def camelUnderscore : List Char → List Char
  | [] => []
  | [c] => [c]
  | c1 :: c2 :: rest =>
    if c1.isLower && c2.isUpper then c1 :: '_' :: camelUnderscore (c2 :: rest)
    else c1 :: camelUnderscore (c2 :: rest)

/-- Replace every maximal run of characters satisfying `p` by a single
underscore (the effect of `re.sub(r'\s+', '_', s)` and `re.sub(r'_+', '_', s)`).
`inRun` records whether the previous character was part of a run. -/
def collapseRuns (p : Char → Bool) : List Char → Bool → List Char
  | [], _ => []
  | c :: rest, inRun =>
    if p c then
      if inRun then collapseRuns p rest true else '_' :: collapseRuns p rest true
    else c :: collapseRuns p rest false

/-- Python `str.strip('_')`. -/
def stripUnderscoreEnds (l : List Char) : List Char :=
  ((l.dropWhile (fun c => c == '_')).reverse.dropWhile (fun c => c == '_')).reverse

/-- `AIService._to_snake_case`: strip, split camelCase with underscores, turn
`[^\w\s]` characters into underscores, collapse whitespace runs and underscore
runs to single underscores, lowercase, strip underscores from the ends, and
fall back to the literal `"column"` when the result (or the input) is empty. -/
def toSnakeCase (s : String) : String :=
  if pyStripS s = "" then "column"
  else
    let t := pyStrip s.data
    let s1 := camelUnderscore t
    let s2 := s1.map (fun c => if isWordCharB c || isPySpace c then c else '_')
    let s3 := collapseRuns isPySpace s2 false
    let s4 := collapseRuns (fun c => c == '_') s3 false
    let s5 := stripUnderscoreEnds (s4.map Char.toLower)
    if s5.isEmpty then "column" else String.mk s5

/-! ## `ai_service.AIService._validate_column_name` -/

/-- The `invalid_patterns` list of `_validate_column_name`, in source order.
Each pattern there has the form `.*X.*` and is applied with `re.search` and
`re.IGNORECASE`, which is exactly a case-insensitive substring test for `X`. -/
def bannedSubstrings : List String :=
  ["customeromer", "identifierifier", "addressess",
   "numberber", "the", "a", "an",
   "column", "field", "value", "name",
   "legacy", "original", "old"]

/-- The anchored regex `^[a-z][a-z0-9_]*$`: a lowercase letter followed by
lowercase letters, digits and underscores. -/
def snakeRegexB (s : String) : Bool :=
  match s.data with
  | [] => false
  | c :: rest => c.isLower && rest.all (fun d => d.isLower || d.isDigit || d == '_')

/-- `AIService._validate_column_name`: reject empty or out-of-bounds lengths,
reject any name containing a banned substring (case-insensitively), reject
names not matching `^[a-z][a-z0-9_]*$`, and reject names equal to the original
up to case. -/
def validateColumnName (name original : String) : Bool :=
  if name = "" ∨ name.length < 2 ∨ 40 < name.length then false
  else if bannedSubstrings.any (fun b => hasInfix (pyLower name).data b.data) then false
  else if ¬ snakeRegexB name then false
  else if pyLower name = pyLower original then false
  else true

/-! ## `ai_service.AIService._clean_column_name` -/

/-- The quote characters removed by `re.sub(r'[\x27"\x60]', '', name)`:
apostrophe, double quote, backtick (written via their code points). -/
def quoteChars : List Char :=
  [Char.ofNat 39, Char.ofNat 34, Char.ofNat 96]

/-- Alternatives of the prefix-stripping regex
`^(the|a|an|column|field|name|value|result|output)\s*`, in source order.
Regex alternation is ordered, so the first alternative that is a prefix wins. -/
def cleanDropFirst : List String :=
  ["the", "a", "an", "column", "field", "name", "value", "result", "output"]

/-- Alternatives of the suffix-stripping regex
`\s*(column|field|name|value|result|output)$`, in source order. -/
def cleanDropLast : List String :=
  ["column", "field", "name", "value", "result", "output"]

/-- Does the suffix regex `\s*(column|field|name|value|result|output)$` match
`cs` starting at index `i`: some run of whitespace from `i` up to some `k`,
followed by one of the words, ending exactly at the end of the string. -/
def cleanSuffixMatchAt (cs : List Char) (i : Nat) : Bool :=
  (List.range (cs.length + 1 - i)).any fun d =>
    ((cs.drop i).take d).all isPySpace &&
      cleanDropLast.any (fun w => cs.drop (i + d) = w.data)

/-- `re.sub(r'\s*(column|field|name|value|result|output)$', '', cs)`: remove
the leftmost (hence the only) match of the anchored suffix pattern. -/
def stripCleanSuffix (cs : List Char) : List Char :=
  match (List.range (cs.length + 1)).find? (fun i => cleanSuffixMatchAt cs i) with
  | some i => cs.take i
  | none => cs

/-- `re.sub(r'^(the|a|an|column|field|name|value|result|output)\s*', '', cs)`:
drop the first listed alternative that prefixes `cs`, then any following
whitespace. -/
def stripCleanPrefix (cs : List Char) : List Char :=
  match cleanDropFirst.find? (fun w => w.data.isPrefixOf cs) with
  | some w => (cs.drop w.length).dropWhile isPySpace
  | none => cs

/-- `AIService._clean_column_name`: strip and lowercase, delete quote
characters, strip a leading and a trailing filler word, snake-case, collapse
and strip underscores, and fall back to `"column"` when empty. -/
def cleanColumnName (name : String) : String :=
  if name = "" then ""
  else
    let c0 := (pyStrip name.data).map Char.toLower |>.filter (fun c => !quoteChars.contains c)
    let c1 := stripCleanSuffix (stripCleanPrefix c0)
    let c2 := (toSnakeCase (String.mk c1)).data
    let c3 := stripUnderscoreEnds (collapseRuns (fun c => c == '_') c2 false)
    if c3.isEmpty then "column" else String.mk c3

/-! ## `ai_service.AIService._heuristic_transformation` -/

/-- The `abbreviations` dictionary of `_heuristic_transformation`, in source
(insertion) order. -/
def abbreviationList : List (String × String) :=
  [("cust", "customer"), ("emp", "employee"), ("addr", "address"),
   ("dept", "department"), ("prod", "product"), ("qty", "quantity"),
   ("amt", "amount"), ("desc", "description"), ("num", "number"),
   ("id", "id"), ("no", "number"), ("dt", "date"),
   ("cd", "code"), ("nm", "name"), ("stat", "status"),
   ("typ", "type"), ("flg", "flag"), ("act", "active")]

/-- Does the abbreviation occur at index `i` of `cs` with the context required
by `^{abbr}[^a-z]|^{abbr}$|[^a-z]{abbr}[^a-z]|[^a-z]{abbr}$`: preceded by the
string start or a non-lowercase character, and followed by the string end or a
non-lowercase character. -/
def abbrCondAt (cs abbr : List Char) (i : Nat) : Bool :=
  abbr.isPrefixOf (cs.drop i) &&
    (i == 0 || !(cs.getD (i - 1) ' ').isLower) &&
    (i + abbr.length == cs.length ||
      (i + abbr.length < cs.length && !(cs.getD (i + abbr.length) ' ').isLower))

/-- `re.search` of the guard pattern above: does it match anywhere? -/
def abbrCondition (cs abbr : List Char) : Bool :=
  (List.range (cs.length + 1)).any (abbrCondAt cs abbr)

/-- Word-boundary test after a match that ends at index `k` of the scanned
suffix `cs` (the abbreviations end in a word character, so the boundary holds
iff the next character is absent or a non-word character). -/
def wbAfter (cs : List Char) (k : Nat) : Bool :=
  k == cs.length || !isWordCharB (cs.getD k ' ')

/-- Fuelled scan for `substWordBounded`; the fuel only needs to be at least
the length of the scanned list, since every step consumes at least one
character. -/
def substWBGo (a0 : Char) (arest full : List Char) :
    Nat → Option Char → List Char → List Char
  | 0, _, cs => cs
  | _ + 1, _, [] => []
  | fuel + 1, prev, c :: rest =>
    if (a0 :: arest).isPrefixOf (c :: rest) &&
        (match prev with
         | none => true
         | some p => !isWordCharB p) &&
        wbAfter (c :: rest) (arest.length + 1) then
      full ++ substWBGo a0 arest full fuel (some ((a0 :: arest).getLastD ' '))
        (rest.drop arest.length)
    else
      c :: substWBGo a0 arest full fuel (some c) rest

/-- `re.sub(rf'\b{abbr}\b', full, cs)` for a purely alphabetic `abbr`
(`a0 :: arest`): replace every non-overlapping occurrence of the abbreviation
delimited by word boundaries, scanning left to right over the original string.
`prev` is the character before the scan position (`none` at the start). -/
def substWordBounded (a0 : Char) (arest full : List Char)
    (prev : Option Char) (cs : List Char) : List Char :=
  substWBGo a0 arest full cs.length prev cs

/-- Apply one abbreviation step of the `_heuristic_transformation` loop:
substitute only when the guard regex matched the current string. -/
def applyAbbrev (r : List Char) (ab full : List Char) : List Char :=
  if abbrCondition r ab then
    match ab with
    | [] => r
    | a0 :: arest => substWordBounded a0 arest full none r
  else r

/-- `AIService._heuristic_transformation`: lowercase, fold the abbreviation
table over the string, then snake-case the result. -/
def heuristicTransformation (col : String) : String :=
  let start := (pyLower col).data
  let result := abbreviationList.foldl (fun r p => applyAbbrev r p.1.data p.2.data) start
  toSnakeCase (String.mk result)

/-! ## `ai_service.AIService._analyze_as400_patterns` -/

/-- The `as400_mappings` dictionary, in source order. -/
def as400Mappings : List (String × String) :=
  [("CUS_ID", "customer_id"), ("CUSTID", "customer_id"), ("CUSTNO", "customer_number"),
   ("CUSTNUM", "customer_number"), ("CUST#", "customer_id"), ("CUSTNAME", "customer_name"),
   ("CUSTNAM", "customer_name"), ("CUSTNM", "customer_name"), ("NME", "name"),
   ("EMPNO", "employee_number"), ("EMPNUM", "employee_number"), ("EMP#", "employee_id"),
   ("EMPNAME", "employee_name"), ("EMPNAM", "employee_name"), ("EMPNM", "employee_name"),
   ("ADDR1", "address_line_1"), ("ADDR2", "address_line_2"), ("STREET", "street_address"),
   ("CITY", "city"), ("STATE", "state"), ("ZIP", "zip_code"), ("ZIPCODE", "zip_code"),
   ("POSTAL", "postal_code"), ("COUNTRY", "country"), ("CREDITLMT", "credit_limit"),
   ("BALANCE", "account_balance"), ("AMT", "amount"), ("AMOUNT", "amount"),
   ("PRICE", "price"), ("HIREDATE", "hire_date"), ("CREATEDT", "create_date"),
   ("MODDT", "modify_date"), ("SHIPDT", "ship_date"), ("ORDERDT", "order_date"),
   ("PARTNO", "part_number"), ("ITEMNO", "item_number"), ("PRODCD", "product_code"),
   ("SKU", "sku"), ("QTY", "quantity"), ("DESC", "description"),
   ("DESCR", "description"), ("E-MAIL", "email"), ("EMAIL", "email"),
   ("PHONE", "phone_number"), ("DEPT", "department"), ("STATUS", "status"),
   ("TYPE", "type"), ("CODE", "code"), ("FLAG", "flag"),
   ("ACTIVE", "is_active"), ("INACTIVE", "is_inactive")]

/-- `AIService._analyze_as400_patterns`:
`as400_mappings.get(col.upper(), _to_snake_case(col))`. -/
def analyzeAs400Patterns (col : String) : String :=
  match as400Mappings.find? (fun p => p.1 == pyUpper col) with
  | some p => p.2
  | none => toSnakeCase col

/-! ## `ai_service.AIService.modernize_column_name`

The generative stage is the only external capability: it is modelled by an
`Option (String → Option String)` parameter.  `none` models the capability
being disabled or unavailable (`self.modernizer` unset); `some g` models an
available model, where `g original = none` models an exception or timeout and
`g original = some txt` models a generated text.  The cache decorator
`@lru_cache(maxsize=1024)` is modelled separately below. -/

/-- The fallthrough after the dictionary and generative stages: the heuristic
transformation guarded by the validator, then the unvalidated
`_to_snake_case` fallback. -/
def modernizeTail (original : String) : String :=
  if validateColumnName (heuristicTransformation original) original then
    heuristicTransformation original
  else toSnakeCase original

/-- The generative stage of `modernize_column_name` followed by the
fallthrough: a generated text is cleaned and must pass the validator,
otherwise (and on unavailability or exception) the heuristic stage runs. -/
def modernizeAI (aiRename : Option (String → Option String)) (original : String) : String :=
  match aiRename with
  | some g =>
    match g original with
    | some txt =>
      if cleanColumnName txt ≠ "" ∧ validateColumnName (cleanColumnName txt) original then
        cleanColumnName txt
      else modernizeTail original
    | none => modernizeTail original
  | none => modernizeTail original

/-- `AIService.modernize_column_name`: blank names become `"unknown_column"`;
a differing AS/400 dictionary hit that passes the validator wins; then the
generative stage; then the heuristic stage; then `_to_snake_case`. -/
def modernizeColumnName (aiRename : Option (String → Option String)) (col : String) : String :=
  if pyStripS col = "" then "unknown_column"
  else if analyzeAs400Patterns (pyStripS col) ≠ toSnakeCase (pyStripS col)
      ∧ validateColumnName (analyzeAs400Patterns (pyStripS col)) (pyStripS col) then
    analyzeAs400Patterns (pyStripS col)
  else modernizeAI aiRename (pyStripS col)

/-! ## `ai_service.AIService._pattern_based_prediction`

Each entry of the `patterns` list compiles a small regular expression and
tests it with `pattern.match(value)`, i.e. anchored at the start of the
value.  All but the email pattern are also anchored at the end with `$`.
The embeddings below implement exactly those matchers on ASCII strings. -/

/-- Class `[A-Za-z0-9._%+-]` (the local part of the email pattern). -/
def isEmailLocalChar (c : Char) : Bool :=
  c.isAlpha || c.isDigit || c == '.' || c == '_' || c == '%' || c == '+' || c == '-'

/-- Class `[A-Za-z0-9.-]` (the domain part of the email pattern). -/
def isEmailDomainChar (c : Char) : Bool :=
  c.isAlpha || c.isDigit || c == '.' || c == '-'

/-- Class `[A-Z|a-z]` of the email pattern (note the literal `|` inside the
class in the source). -/
def isTldChar (c : Char) : Bool :=
  c.isAlpha || c == '|'

/-- Is the character at index `i` a word character (`false` beyond the end)? -/
def wordAt (cs : List Char) (i : Nat) : Bool :=
  if i < cs.length then isWordCharB (cs.getD i ' ') else false

/-- Regex `\b` at index `i`: word-ness differs between the characters at
`i - 1` and `i` (positions outside the string count as non-word). -/
def boundaryAt (cs : List Char) : Nat → Bool
  | 0 => wordAt cs 0
  | j + 1 => wordAt cs j != wordAt cs (j + 1)

/-- After the `@`, the email pattern needs `[A-Za-z0-9.-]+\.[A-Z|a-z]{2,}\b`.
Backtracking regex matching succeeds iff some decomposition works, so this is
a bounded existential over the split positions `j` (the dot) and `m` (the end
of the TLD letters). -/
def emailDomainTail (t : List Char) : Bool :=
  (List.range (t.length + 1)).any fun j =>
    decide (1 ≤ j) && (t.take j).all isEmailDomainChar && (t.getD j ' ' == '.') &&
      ((List.range (t.length + 1)).any fun m =>
        decide (j + 3 ≤ m) && ((t.drop (j + 1)).take (m - (j + 1))).all isTldChar &&
          boundaryAt t m)

/-- `re.match` of `\b[A-Za-z0-9._%+-]+@[A-Za-z0-9.-]+\.[A-Z|a-z]{2,}\b`.
Anchored at the start by `match`; since `@` is not a local-part character the
local part is forced to be the maximal run of local characters. -/
def emailMatch (s : String) : Bool :=
  let cs := s.data
  let lrun := (cs.takeWhile isEmailLocalChar).length
  boundaryAt cs 0 && decide (1 ≤ lrun) && (cs.getD lrun ' ' == '@') &&
    emailDomainTail (cs.drop (lrun + 1))

/-- Class `[\d\s-()]` of the phone pattern: digits, whitespace, `-`, `(`, `)`
(the hyphen after `\s` is a literal in Python's `re`). -/
def isPhoneChar (c : Char) : Bool :=
  c.isDigit || isPySpace c || c == '-' || c == '(' || c == ')'

/-- `^\+?[\d\s-()]{7,20}$`. -/
def phoneMatch (s : String) : Bool :=
  let cs := s.data
  let rest := if cs.headD ' ' == '+' then cs.tail else cs
  decide (7 ≤ rest.length) && decide (rest.length ≤ 20) && rest.all isPhoneChar

/-- Positional shape matcher: the string has exactly the shape's length and
each character satisfies the class at its position. -/
def shapeMatch (cs : List Char) (shape : List (Char → Bool)) : Bool :=
  cs.length == shape.length && (cs.zip shape).all fun p => p.2 p.1

/-- `^\d{4}-\d{2}-\d{2}$|^\d{2}/\d{2}/\d{4}$|^\d{2}-\d{2}-\d{4}$`. -/
def dateMatch (s : String) : Bool :=
  let d := Char.isDigit
  shapeMatch s.data [d, d, d, d, (· == '-'), d, d, (· == '-'), d, d] ||
  shapeMatch s.data [d, d, (· == '/'), d, d, (· == '/'), d, d, d, d] ||
  shapeMatch s.data [d, d, (· == '-'), d, d, (· == '-'), d, d, d, d]

/-- `^\d{5}(-\d{4})?$`. -/
def zipMatch (s : String) : Bool :=
  let d := Char.isDigit
  shapeMatch s.data [d, d, d, d, d] ||
  shapeMatch s.data [d, d, d, d, d, (· == '-'), d, d, d, d]

/-- `^\$?\d+(?:\.\d{2})?$` (shared by the `amount` and `price` entries, whose
source regexes are identical).  The digit run before the optional decimal part
is forced to be maximal. -/
def amountMatch (s : String) : Bool :=
  let cs0 := s.data
  let cs := if cs0.headD ' ' == '$' then cs0.tail else cs0
  let ip := cs.takeWhile Char.isDigit
  let rest := cs.drop ip.length
  decide (1 ≤ ip.length) &&
    (rest.isEmpty ||
      ((rest.headD ' ' == '.') && rest.length == 3 && rest.tail.all Char.isDigit))

/-- `^\d+$`. -/
def quantityMatch (s : String) : Bool :=
  !s.data.isEmpty && s.data.all Char.isDigit

/-- `^[A-Z0-9_-]+$`. -/
def idMatch (s : String) : Bool :=
  !s.data.isEmpty && s.data.all (fun c => c.isUpper || c.isDigit || c == '_' || c == '-')

/-- `^\d+(?:\.\d+)?%$`. -/
def percentageMatch (s : String) : Bool :=
  let cs := s.data
  let body := cs.take (cs.length - 1)
  let ip := body.takeWhile Char.isDigit
  let rest := body.drop ip.length
  !cs.isEmpty && (cs.getD (cs.length - 1) ' ' == '%') && decide (1 ≤ ip.length) &&
    (rest.isEmpty ||
      ((rest.headD ' ' == '.') && decide (1 ≤ rest.tail.length) && rest.tail.all Char.isDigit))

/-- `^(active|inactive|pending|approved|rejected)$` with `re.IGNORECASE`. -/
def statusMatch (s : String) : Bool :=
  ["active", "inactive", "pending", "approved", "rejected"].contains (pyLower s)

/-- The ordered `patterns` list of `_pattern_based_prediction`. -/
def patternList : List (String × (String → Bool)) :=
  [("email", emailMatch), ("phone_number", phoneMatch), ("date", dateMatch),
   ("zip_code", zipMatch), ("amount", amountMatch), ("price", amountMatch),
   ("quantity", quantityMatch), ("id", idMatch), ("percentage", percentageMatch),
   ("status", statusMatch)]

/-- Increment the count of key `k` in an insertion-ordered association list,
appending a fresh entry at the end on first occurrence — the behaviour of
`collections.Counter` updates. -/
def counterIncr (l : List (String × Nat)) (k : String) : List (String × Nat) :=
  match l with
  | [] => [(k, 1)]
  | (k', n) :: t => if k' == k then (k', n + 1) :: t else (k', n) :: counterIncr t k

/-- The counting loop of `_pattern_based_prediction`: each sample value
increments the first pattern (in declaration order) that matches it. -/
def patternMatchCounts (sample : List String) : List (String × Nat) :=
  sample.foldl
    (fun counts v =>
      match patternList.find? (fun p => p.2 v) with
      | some p => counterIncr counts p.1
      | none => counts)
    []

/-- Keep the better of two counted entries, preferring the earlier one on
ties (strict comparison). -/
def pickMax (a b : String × Nat) : String × Nat :=
  if a.2 < b.2 then b else a

/-- `Counter.most_common(1)`: the first-inserted entry among those with the
maximal count (`heapq.nlargest` is stable, so earlier insertions win ties). -/
def mostCommon1 : List (String × Nat) → Option (String × Nat)
  | [] => none
  | h :: t => some (t.foldl pickMax h)

/-- The maximal count appearing in a counted list (0 when empty). -/
def maxCnt (l : List (String × Nat)) : Nat :=
  l.foldr (fun p m => max p.2 m) 0

/-- The data-type fallback of `_pattern_based_prediction`:
`numeric_{i}` when every one of the first 10 sample values consists of digits
after deleting `.` and `-` (Python's `str.isdigit`, false on empty), else
`text_{i}`. -/
def typeFallback (sample : List String) (i : Nat) : String :=
  if (sample.take 10).all (fun v =>
      let w := v.data.filter (fun c => !(c == '.' || c == '-'))
      !w.isEmpty && w.all Char.isDigit) then
    "numeric_" ++ toString i
  else "text_" ++ toString i

/-- `AIService._pattern_based_prediction`.  The float threshold
`count / len(sample) > 0.3` is modelled by the exact rational comparison
`3 * len < 10 * count`; the two agree on all sample sizes that arise here
(equality at the boundary is not `>` in either reading). -/
def patternBasedPrediction (sample : List String) (i : Nat) : String :=
  match mostCommon1 (patternMatchCounts sample) with
  | some p => if 3 * sample.length < 10 * p.2 then p.1 else typeFallback sample i
  | none => typeFallback sample i

/-! ## `ai_service.AIService.predict_column_name_from_data`

The generative branch is modelled by an `Option (List String → Option String)`
parameter exactly as for `modernize_column_name`. -/

/-- `AIService.predict_column_name_from_data`. -/
def predictColumnNameFromData (aiPredict : Option (List String → Option String))
    (columnData : List String) (colIndex : Nat) : String :=
  if columnData.isEmpty then "column_" ++ toString colIndex
  else
    let sample := (columnData.take 100).filterMap
      (fun d => let t := pyStripS d; if t = "" then none else some t)
    if sample.isEmpty then "data_column_" ++ toString colIndex
    else
      let patternResult := patternBasedPrediction sample colIndex
      if patternResult ≠ "" ∧ ¬ startsWithAny patternResult ["text_data_", "numeric_data_"] then
        patternResult
      else
        match aiPredict with
        | some g =>
          match g sample with
          | some txt =>
            let clean := cleanColumnName (pyLower (pyStripS txt))
            if clean ≠ "" ∧ validateColumnName clean "" then clean else patternResult
          | none => patternResult
        | none => patternResult

/-! ## `file_service.FileProcessingService.safe_decode`

`chardet.detect` and Python's `bytes.decode` are external collaborators.
Modelled from the spec: detection ("statistical byte analysis") may raise or
report no encoding, and decoding with a detected label may raise (an unknown
codec name); both are abstract parameters below, as is the lossy UTF-8
fallback decode.  Raising is modelled by `Except`; `safe_decode` itself is a
total function into `String`, which is the "never fails" contract. -/

/-- `detect.get("encoding") or "utf-8"`: Python's `or` replaces both `None`
and the empty string by the default. -/
def encOrDefault : Option String → String
  | some e => if e = "" then "utf-8" else e
  | none => "utf-8"

/-- `FileProcessingService.safe_decode`, parameterised by the external
detector, the lossy decoder keyed by encoding name, and the lossy UTF-8
fallback decoder. -/
def safeDecode (detect : List Nat → Except Unit (Option String))
    (decodeIgn : String → List Nat → Except Unit String)
    (utf8Ign : List Nat → String) (raw : List Nat) : String :=
  match detect raw with
  | Except.ok enc =>
    match decodeIgn (encOrDefault enc) raw with
    | Except.ok s => s
    | Except.error _ => utf8Ign raw
  | Except.error _ => utf8Ign raw

/-! ## `file_service.FileProcessingService.detect_fixed_width_structure` -/

/-- Does the stripped line match `^[-=\s]+$` (a nonempty run of dashes,
equals signs and whitespace)?  Callers pass already-stripped nonempty
strings. -/
def isSepStr (s : String) : Bool :=
  !s.data.isEmpty && s.data.all (fun c => c == '-' || c == '=' || isPySpace c)

/-- Does the raw line contain a letter (`re.search('[A-Za-z]', line)`)? -/
def hasLetter (s : String) : Bool :=
  s.data.any Char.isAlpha

/-- The header-scan loop over the first five lines: skip blank and separator
lines; the first line containing a letter and not starting with report
furniture (`Page`/`Date`/`Time`) becomes the header; a second such line ends
the scan. -/
def findHeaderLine : List String → Option String → Option String
  | [], acc => acc
  | l :: rest, acc =>
    if pyStripS l = "" || isSepStr (pyStripS l) then findHeaderLine rest acc
    else if hasLetter l && !startsWithAny (pyStripS l) ["Page", "Date", "Time"] then
      match acc with
      | none => findHeaderLine rest (some l)
      | some h => some h
    else findHeaderLine rest acc

/-- The character scan of the header line: contiguous non-whitespace runs
become `(start, stop, name)` spans, where `stop` is the index one past the
run (for the final run, the line length).  `pos` is the current index,
`start` the start of the current run, `cur` its characters so far. -/
def headerSpans (pos start : Nat) (cur : List Char) :
    List Char → List (Nat × Nat × String)
  | [] => if cur.isEmpty then [] else [(start, pos, String.mk (pyStrip cur))]
  | c :: rest =>
    if isPySpace c then
      if cur.isEmpty then headerSpans (pos + 1) (pos + 1) [] rest
      else (start, pos, String.mk (pyStrip cur)) :: headerSpans (pos + 1) (pos + 1) [] rest
    else headerSpans (pos + 1) start (cur ++ [c]) rest

/-- `FileProcessingService.detect_fixed_width_structure`: with fewer than 3
lines return nothing; find a header line among the first five; segment it by
whitespace runs into spans; succeed only with more than one span. -/
def detectFixedWidthStructure (lines : List String) : Option (List (Nat × Nat × String)) :=
  if lines.length < 3 then none
  else
    match findHeaderLine (lines.take 5) none with
    | none => none
    | some h =>
      let ws := headerSpans 0 0 [] h.data
      if 1 < ws.length then some ws else none

/-! ## `file_service.FileProcessingService.parse_fixed_width_data` -/

/-- The stripped line matches `^[A-Z][A-Z0-9\s]*$`: an uppercase letter
followed by uppercase letters, digits and whitespace. -/
def upperHeaderLine (s : String) : Bool :=
  match s.data with
  | [] => false
  | c :: rest => c.isUpper && rest.all (fun d => d.isUpper || d.isDigit || isPySpace d)

/-- The `data_start` scan of `parse_fixed_width_data`: a separator line sets
the start one past itself; otherwise the first line after index 0 that does
not look like an uppercase header row starts the data; with no break the
start stays 0. -/
def findDataStart (i : Nat) : List String → Nat
  | [] => 0
  | l :: rest =>
    if isSepStr (pyStripS l) then i + 1
    else if 0 < i && !upperHeaderLine (pyStripS l) then i
    else findDataStart (i + 1) rest

/-- `line[start:min(end, len(line))].strip()` guarded by `start < len(line)`,
else the empty string. -/
def extractCell (line : List Char) (start stop : Nat) : String :=
  if start < line.length then
    String.mk (pyStrip ((line.drop start).take (min stop line.length - start)))
  else ""

/-- The row-extraction loop over one data line: slice every span, keep the
row only when some cell is nonempty; blank and separator lines produce no
row. -/
def extractRow (spans : List (Nat × Nat × String)) (line : String) : Option (List String) :=
  if pyStripS line = "" || isSepStr (pyStripS line) then none
  else
    let row := spans.map (fun t => extractCell line.data t.1 t.2.1)
    if row.any (fun c => c ≠ "") then some row else none

/-- The structured branch of `FileProcessingService.parse_fixed_width_data`:
strip and split the content into nonempty lines, detect the span structure,
locate the data start, and slice every data line by the spans.  The source
additionally falls back to `pandas.read_fwf` (an external parser) when this
branch yields nothing; that fallback is modelled as producing no table, and
no theorem below depends on it. -/
def parseFixedWidthStructured (content : String) :
    Option (List String × List (List String)) :=
  let lines := (pyLines (pyStripS content)).filter (fun l => pyStripS l ≠ "")
  if lines.length < 2 then none
  else
    match detectFixedWidthStructure lines with
    | none => none
    | some spans =>
      let dataStart := findDataStart 0 lines
      let cols := spans.map (fun t => t.2.2)
      let dataRows := (lines.drop (max dataStart 1)).filterMap (extractRow spans)
      if dataRows.isEmpty then none else some (cols, dataRows)

/-! ## `file_service.FileProcessingService.detect_delimiter_and_read_text` -/

/-- A parsed table: header tokens and rows of cells. -/
structure PTable where
  headers : List String
  rows : List (List String)
deriving DecidableEq, Repr

/-- Modelled from the spec: `pandas.read_csv(..., sep=delim, engine="python")`
is an external parser; on the quote-free single-character-delimited inputs
considered here it splits each nonempty line on the delimiter, takes the
first line as the header, fails when a later row has more fields than the
header, and pads shorter rows with empty cells. -/
def readCsvModel (delim : Char) (content : String) : Option PTable :=
  let lines := (pyLines content).filter (fun l => pyStripS l ≠ "")
  match lines with
  | [] => none
  | h :: rest =>
    let headers := (splitOnChar delim h.data).map String.mk
    let rawRows := rest.map (fun l => (splitOnChar delim l.data).map String.mk)
    if rawRows.any (fun r => headers.length < r.length) then none
    else some ⟨headers, rawRows.map (fun r => r ++ List.replicate (headers.length - r.length) "")⟩

/-- The acceptance test applied to every parse attempt:
`df.shape[1] > 1 and len(df) > 0`. -/
def okShape (t : PTable) : Bool :=
  1 < t.headers.length && !t.rows.isEmpty

/-- The fallback loop over `delimiters_to_try = [',', '\t', '|', ';', ' ']`:
accept the first delimiter whose parse succeeds with more than one column and
at least one row. -/
def tryDelims (content : String) : List Char → Option PTable
  | [] => none
  | d :: ds =>
    match readCsvModel d content with
    | some t => if okShape t then some t else tryDelims content ds
    | none => tryDelims content ds

/-- `^[A-Z][A-Z0-9\s]{10,}` searched with `re.search` but anchored by `^`:
the line starts with an uppercase letter followed by at least ten characters
from `[A-Z0-9\s]`. -/
def headerPattern10 (l : String) : Bool :=
  match l.data with
  | [] => false
  | c :: rest =>
    c.isUpper && decide (10 ≤ (rest.takeWhile (fun d => d.isUpper || d.isDigit || isPySpace d)).length)

/-- The AS/400 fixed-width signals checked on the nonempty lines:
at most two distinct line lengths among the first ten, or an uppercase
header-looking line among the first three, or a separator line among the
first five. -/
def fixedWidthSignals (lines : List String) : Bool :=
  ((lines.take 10).map String.length).dedup.length ≤ 2 ||
    (lines.take 3).any headerPattern10 ||
    (lines.take 5).any (fun l => isSepStr (pyStripS l))

/-- The manual whitespace-tokenization fallback at the end of
`detect_delimiter_and_read_text`. -/
def manualTokenize (lines : List String) : Option PTable :=
  match lines with
  | [] => none
  | headerLine :: dataLines =>
    let headerTokens := (splitWs headerLine.data).map String.mk
    let isHeader := headerTokens.any (fun t =>
      let w := t.data.filter (fun c => !(c == '.' || c == '-'))
      !(!w.isEmpty && w.all Char.isDigit))
    if isHeader && !dataLines.isEmpty then
      let rows := dataLines.map (fun l =>
        let toks := (splitWs l.data).map String.mk
        (toks ++ List.replicate (headerTokens.length - toks.length) "").take headerTokens.length)
      if rows.isEmpty then none else some ⟨headerTokens, rows⟩
    else none

/-- `FileProcessingService.detect_delimiter_and_read_text`, parameterised by
the result of the external `csv.Sniffer` (`none` models a sniffer failure).
The fixed-width branch runs first when its signals hold (exceptions there are
swallowed); then the sniffed delimiter, then the fixed fallback list, then
manual tokenization. -/
def detectDelimiterAndReadText (sniff : Option Char) (content : String) : Option PTable :=
  let lines := (pyLines content).filter (fun l => pyStripS l ≠ "")
  let fwResult :=
    if 3 ≤ lines.length ∧ fixedWidthSignals lines then
      (parseFixedWidthStructured content).map (fun p => PTable.mk p.1 p.2)
    else none
  match fwResult with
  | some t => some t
  | none =>
    let sniffed :=
      match sniff with
      | some d =>
        match readCsvModel d content with
        | some t => if okShape t then some t else none
        | none => none
      | none => none
    match sniffed with
    | some t => some t
    | none =>
      match tryDelims content [',', '\t', '|', ';', ' '] with
      | some t => some t
      | none => manualTokenize lines

/-! ## `file_service.FileProcessingService._modernize_column_names` -/

/-- Resolution of one header slot `(i, colName)`: blank or placeholder-like
names (`unnamed`/`col_`/`empty` prefixes, case-insensitively) go to the
content-prediction path over the column's non-null values; other names go to
`modernize_column_name`; finally, empty or one-character results are replaced
by `column_{i}`. -/
def resolveHeader (aiRename : Option (String → Option String))
    (aiPredict : Option (List String → Option String))
    (cols : List (List (Option String))) (i : Nat) (colName : String) : String :=
  let original := pyStripS colName
  let name :=
    if original = "" ∨ startsWithAny (pyLower original) ["unnamed", "col_", "empty"] then
      predictColumnNameFromData aiPredict ((cols.getD i []).filterMap id) i
    else modernizeColumnName aiRename original
  if name = "" ∨ name.length < 2 then "column_" ++ toString i else name

/-- `FileProcessingService._modernize_column_names` on a table given as a
header list and per-column cell lists (a cell is `none` when null). -/
def modernizeColumnNames (aiRename : Option (String → Option String))
    (aiPredict : Option (List String → Option String))
    (headers : List String) (cols : List (List (Option String))) : List String :=
  headers.enum.map (fun p => resolveHeader aiRename aiPredict cols p.1 p.2)

/-! ## `file_service.FileProcessingService.process_file` (post-parse stage)

The upload/extension plumbing is routing; the claim-relevant tail of
`process_file` is embedded: the emptiness check, the `col_{i}` placeholder
renaming, empty-row removal with its second emptiness check, and column
modernization.  Both failure branches raise `HTTPException(status_code=400)`. -/

/-- The two fatal post-parse errors of `process_file`; both are surfaced as
HTTP 400 client-input errors ("No data found in file" and
"No valid data rows found"). -/
inductive ProcessError
  | noDataFound
  | noValidDataRows
deriving DecidableEq, Repr

/-- Both process errors carry HTTP status 400. -/
def processErrorStatus : ProcessError → Nat := fun _ => 400

/-- A row survives `df.dropna(how='all')` iff some cell is non-null. -/
def rowNonEmpty (r : List (Option String)) : Bool :=
  r.any (fun c => c.isSome)

/-- Column view of a row-major table, padding missing cells with `none`. -/
def columnsOf (n : Nat) (rows : List (List (Option String))) : List (List (Option String)) :=
  (List.range n).map (fun i => rows.map (fun r => r.getD i none))

/-- The temporary placeholder renaming of `process_file`: a header whose
stripped text is empty becomes `col_{i}`. -/
def placeholderHeaders (headers : List String) : List String :=
  headers.enum.map (fun p => if pyStripS p.2 ≠ "" then p.2 else "col_" ++ toString p.1)

/-- The post-parse tail of `FileProcessingService.process_file`: reject an
empty frame, rename blank headers to `col_{i}`, drop all-null rows, reject an
emptied frame, and modernize the column names. -/
def processParsedTable (aiRename : Option (String → Option String))
    (aiPredict : Option (List String → Option String))
    (headers : List String) (rows : List (List (Option String))) :
    Except ProcessError (List String × List (List (Option String))) :=
  if headers.isEmpty ∨ rows.isEmpty then Except.error ProcessError.noDataFound
  else if (rows.filter rowNonEmpty).isEmpty then Except.error ProcessError.noValidDataRows
  else
    Except.ok
      (modernizeColumnNames aiRename aiPredict (placeholderHeaders headers)
        (columnsOf (placeholderHeaders headers).length (rows.filter rowNonEmpty)),
       rows.filter rowNonEmpty)

/-! ## The resolution cache

`modernize_column_name` is decorated with `@functools.lru_cache(maxsize=1024)`.
The decorator's contract: a hit returns the stored value (and marks the entry
most recently used); a miss computes, stores, and evicts the least recently
used entry when the capacity is exceeded.  The cache is modelled as an
association list ordered from least to most recently used. -/

/-- The `maxsize` of the decorator on `modernize_column_name`. -/
def modernizeCacheCap : Nat := 1024

/-- The last `n` elements of a list. -/
def lastN (n : Nat) (l : List α) : List α :=
  l.drop (l.length - n)

/-- Insert a freshly computed entry at the most-recently-used end, evicting
from the least-recently-used end beyond the capacity. -/
def lruPut (cap : Nat) (cache : List (String × String)) (k v : String) :
    List (String × String) :=
  let c := cache ++ [(k, v)]
  if cap < c.length then c.drop (c.length - cap) else c

/-- One cached call: a hit returns the stored value and moves the entry to
the most-recently-used end without calling `f`; a miss calls `f` and stores
the result. -/
def lruAccess (cap : Nat) (cache : List (String × String)) (k : String)
    (f : String → String) : String × List (String × String) :=
  match cache.find? (fun p => p.1 == k) with
  | some p => (p.2, cache.filter (fun q => !(q.1 == k)) ++ [(k, p.2)])
  | none => (f k, lruPut cap cache k (f k))

/-- A sequence of cached calls starting from a given cache state. -/
def lruFold (cap : Nat) (f : String → String) (cache : List (String × String))
    (ks : List String) : List (String × String) :=
  ks.foldl (fun c k => (lruAccess cap c k f).2) cache

/-- A family of pairwise-distinct column names (distinct by length). -/
def cacheKey (n : Nat) : String :=
  String.mk (List.replicate (n + 1) 'x')

/-- One more distinct resolution than the cache capacity. -/
def evictKeys : List String :=
  (List.range (modernizeCacheCap + 1)).map cacheKey

/-! ## Spec-side definition for the amended C6 claim -/

/-- Amended selection rule, written from the amended claim's words: among the
counted patterns the winner is the earliest-recorded entry achieving the
maximal match count; it is returned when its count exceeds 30% of the sample
size, and otherwise the coarse data-type label is returned. -/
def amendedPrediction (sample : List String) (i : Nat) : String :=
  let counts := patternMatchCounts sample
  match counts.find? (fun p => p.2 == maxCnt counts) with
  | some p => if 3 * sample.length < 10 * p.2 then p.1 else typeFallback sample i
  | none => typeFallback sample i

/-! ## Concrete inputs used by the theorems -/

/-- Synthetic AS/400 report: header line, separator line, two data lines (the
second one ends before the CITY span) and one line whose extracted cells are
all empty. -/
def fwReport : String :=
  "NAME   AGE  CITY\n----   ---  ----\nJohn   25   NYC\nJane   31\n      :"

/-- The nonempty lines of `fwReport`, as computed by
`parse_fixed_width_data`. -/
def fwReportLines : List String :=
  (pyLines (pyStripS fwReport)).filter (fun l => pyStripS l ≠ "")

/-- A text blob whose only non-alphanumeric separator is the pipe. -/
def pipeBlob : String :=
  "ID|NAME\n1|JOHN\n22|MARYANNE"

/-- A blob containing both `;` and `|`; the pipe precedes the semicolon in
the fallback order. -/
def pipeSemiBlob : String :=
  "A;B|C\n1;2|3"

end Modernizer

namespace Modernizer

/-! ## Helper lemmas -/

/-- The validator only accepts names that match `^[a-z][a-z0-9_]*$` and have
length between 2 and 40. -/
theorem validate_accepts_snake (name original : String)
    (h : validateColumnName name original = true) :
    snakeRegexB name = true ∧ 2 ≤ name.length ∧ name.length ≤ 40 := by
  unfold validateColumnName at h
  split at h
  · exact absurd h (by simp)
  · rename_i hlen
    push_neg at hlen
    split at h
    · exact absurd h (by simp)
    · split at h
      · exact absurd h (by simp)
      · rename_i hsnake
        refine ⟨by simpa using hsnake, by omega, by omega⟩

/-- `modernize_column_name` either returns a validator-accepted name or falls
back to the unvalidated `_to_snake_case` of the (stripped) original, or to
the `"unknown_column"` placeholder for blank input. -/
theorem modernize_result_shape (aiRename : Option (String → Option String)) (col : String) :
    validateColumnName (modernizeColumnName aiRename col) (pyStripS col) = true ∨
      modernizeColumnName aiRename col = toSnakeCase (pyStripS col) ∨
      modernizeColumnName aiRename col = "unknown_column" := by
  unfold modernizeColumnName
  split
  · exact Or.inr (Or.inr rfl)
  · split
    · rename_i h
      exact Or.inl h.2
    · unfold modernizeAI modernizeTail
      match aiRename with
      | none =>
        simp only
        split
        · rename_i h
          exact Or.inl h
        · exact Or.inr (Or.inl rfl)
      | some g =>
        simp only
        match g (pyStripS col) with
        | none =>
          simp only
          split
          · rename_i h
            exact Or.inl h
          · exact Or.inr (Or.inl rfl)
        | some txt =>
          simp only
          split
          · rename_i h
            exact Or.inl h.2
          · split
            · rename_i h
              exact Or.inl h
            · exact Or.inr (Or.inl rfl)

theorem maxCnt_cons (p : String × Nat) (l : List (String × Nat)) :
    maxCnt (p :: l) = max p.2 (maxCnt l) := rfl

/-- Some entry of a nonempty counted list attains the maximal count. -/
theorem maxCnt_attained : ∀ (l : List (String × Nat)), l ≠ [] →
    ∃ p ∈ l, p.2 = maxCnt l := by
  intro l hl
  induction l with
  | nil => exact absurd rfl hl
  | cons x t ih =>
    rw [maxCnt_cons]
    by_cases ht : t = []
    · subst ht
      exact ⟨x, List.mem_cons_self _ _, by simp [maxCnt]⟩
    · obtain ⟨p, hp, hpc⟩ := ih ht
      by_cases hx : maxCnt t ≤ x.2
      · exact ⟨x, List.mem_cons_self _ _, (Nat.max_eq_left hx).symm⟩
      · refine ⟨p, List.mem_cons_of_mem _ hp, ?_⟩
        rw [Nat.max_eq_right (Nat.le_of_not_le hx), hpc]

/-- The strict-comparison fold of `most_common` keeps the first entry
attaining the maximum: starting from `a` it returns `a` itself unless some
later entry strictly exceeds it, in which case it returns the first entry of
the list attaining the list's maximum. -/
theorem foldl_pickMax : ∀ (t : List (String × Nat)) (a : String × Nat),
    t.foldl pickMax a =
      if a.2 < maxCnt t then (t.find? (fun p => p.2 == maxCnt t)).getD a else a := by
  intro t
  induction t with
  | nil =>
    intro a
    simp [maxCnt]
  | cons x t' ih =>
    intro a
    rw [List.foldl_cons, ih (pickMax a x), maxCnt_cons]
    by_cases hax : a.2 < x.2
    · have hpick : pickMax a x = x := by simp [pickMax, hax]
      rw [hpick]
      by_cases hxM : x.2 < maxCnt t'
      · have hmax : max x.2 (maxCnt t') = maxCnt t' := Nat.max_eq_right (Nat.le_of_lt hxM)
        have hcond : a.2 < max x.2 (maxCnt t') := by omega
        have hPx : (x.2 == max x.2 (maxCnt t')) = false := by
          rw [hmax]; exact beq_eq_false_iff_ne.mpr (Nat.ne_of_lt hxM)
        have ht' : t' ≠ [] := by
          intro h
          rw [h] at hxM
          simp [maxCnt] at hxM
        obtain ⟨p, hp, hpc⟩ := maxCnt_attained t' ht'
        have hsome : (t'.find? (fun p => p.2 == maxCnt t')).isSome := by
          rw [List.find?_isSome]
          exact ⟨p, hp, by simpa using hpc⟩
        rw [if_pos hxM, if_pos hcond, List.find?_cons_of_neg _ (by simpa using hPx), hmax]
        cases hfind : t'.find? (fun p => p.2 == maxCnt t') with
        | none => rw [hfind] at hsome; simp at hsome
        | some v => simp
      · have hle : maxCnt t' ≤ x.2 := Nat.le_of_not_lt hxM
        have hmax : max x.2 (maxCnt t') = x.2 := Nat.max_eq_left hle
        have hcond : a.2 < max x.2 (maxCnt t') := by omega
        rw [if_neg hxM, if_pos hcond, hmax, List.find?_cons_of_pos _ (by simp)]
        simp
    · have hpick : pickMax a x = a := by simp [pickMax, hax]
      rw [hpick]
      by_cases haM : a.2 < maxCnt t'
      · have hxa : x.2 ≤ a.2 := Nat.le_of_not_lt hax
        have hmax : max x.2 (maxCnt t') = maxCnt t' := Nat.max_eq_right (by omega)
        have hcond : a.2 < max x.2 (maxCnt t') := by omega
        have hPx : (x.2 == max x.2 (maxCnt t')) = false := by
          rw [hmax]; exact beq_eq_false_iff_ne.mpr (by omega)
        rw [if_pos haM, if_pos hcond, List.find?_cons_of_neg _ (by simpa using hPx), hmax]
      · have hcond : ¬ a.2 < max x.2 (maxCnt t') := by
          have hxa : x.2 ≤ a.2 := Nat.le_of_not_lt hax
          omega
        rw [if_neg haM, if_neg hcond]

/-- `Counter.most_common(1)` returns the first-inserted entry attaining the
maximal count (and nothing on an empty counter). -/
theorem mostCommon1_eq_findMax (l : List (String × Nat)) :
    mostCommon1 l = l.find? (fun p => p.2 == maxCnt l) := by
  cases l with
  | nil => rfl
  | cons h t =>
    rw [mostCommon1, foldl_pickMax, maxCnt_cons]
    by_cases hh : h.2 < maxCnt t
    · have hmax : max h.2 (maxCnt t) = maxCnt t := Nat.max_eq_right (Nat.le_of_lt hh)
      have hPh : (h.2 == max h.2 (maxCnt t)) = false := by
        rw [hmax]; exact beq_eq_false_iff_ne.mpr (Nat.ne_of_lt hh)
      have ht : t ≠ [] := by
        intro he
        rw [he] at hh
        simp [maxCnt] at hh
      obtain ⟨p, hp, hpc⟩ := maxCnt_attained t ht
      have hsome : (t.find? (fun p => p.2 == maxCnt t)).isSome := by
        rw [List.find?_isSome]
        exact ⟨p, hp, by simpa using hpc⟩
      rw [if_pos hh, List.find?_cons_of_neg _ (by simpa using hPh), hmax]
      cases hfind : t.find? (fun p => p.2 == maxCnt t) with
      | none => rw [hfind] at hsome; simp at hsome
      | some v => simp
    · have hle : maxCnt t ≤ h.2 := Nat.le_of_not_lt hh
      have hmax : max h.2 (maxCnt t) = h.2 := Nat.max_eq_left hle
      rw [if_neg hh, hmax, List.find?_cons_of_pos _ (by simp)]

theorem lastN_length_le (n : Nat) (l : List α) : (lastN n l).length ≤ n := by
  simp [lastN]
  omega

theorem lastN_of_length_le (n : Nat) (l : List α) (h : l.length ≤ n) :
    lastN n l = l := by
  simp [lastN, Nat.sub_eq_zero_of_le h]

/-- Inserting into an LRU cache and re-truncating commutes with truncating
first: keeping the last `cap` elements, appending, and keeping the last `cap`
again equals appending and keeping the last `cap` once. -/
theorem lastN_append_lastN (cap : Nat) (c l : List α) :
    lastN cap (lastN cap c ++ l) = lastN cap (c ++ l) := by
  simp only [lastN, List.drop_append_eq_append_drop, List.drop_drop,
    List.length_append, List.length_drop]
  congr 2 <;> omega

theorem lruPut_eq_lastN (cap : Nat) (c : List (String × String)) (k v : String) :
    lruPut cap c k v = lastN cap (c ++ [(k, v)]) := by
  simp only [lruPut, lastN]
  split
  · rfl
  · rename_i h
    rw [Nat.sub_eq_zero_of_le (Nat.le_of_not_lt h)]
    simp

/-- Folding a run of cache misses on pairwise-distinct keys over a cache that
contains none of them keeps exactly the last `cap` computed pairs (in
insertion order). -/
theorem lruFold_all_misses (cap : Nat) (f : String → String) :
    ∀ (ks : List String) (c : List (String × String)),
      ks.Nodup → (∀ k ∈ ks, ∀ p ∈ c, p.1 ≠ k) → c.length ≤ cap →
      lruFold cap f c ks = lastN cap (c ++ ks.map (fun k => (k, f k))) := by
  intro ks
  induction ks with
  | nil =>
    intro c _ _ hlen
    simp [lruFold, lastN_of_length_le cap c hlen]
  | cons k ks' ih =>
    intro c hnodup hfresh hlen
    have hmiss : c.find? (fun p => p.1 == k) = none := by
      rw [List.find?_eq_none]
      intro p hp
      simpa using hfresh k (List.mem_cons_self _ _) p hp
    have hstep : (lruAccess cap c k f).2 = lastN cap (c ++ [(k, f k)]) := by
      rw [lruAccess, hmiss, lruPut_eq_lastN]
    have hsub : ∀ p ∈ lastN cap (c ++ [(k, f k)]), p ∈ c ++ [(k, f k)] := by
      intro p hp
      exact List.drop_subset _ _ hp
    have hnodup' : ks'.Nodup := (List.nodup_cons.mp hnodup).2
    have hknot : k ∉ ks' := (List.nodup_cons.mp hnodup).1
    have hfresh' : ∀ k' ∈ ks', ∀ p ∈ lastN cap (c ++ [(k, f k)]), p.1 ≠ k' := by
      intro k' hk' p hp
      rcases List.mem_append.mp (hsub p hp) with hc | hkp
      · exact hfresh k' (List.mem_cons_of_mem _ hk') p hc
      · have hpk : p = (k, f k) := by simpa using hkp
        rw [hpk]
        intro hcontra
        apply hknot
        have hkk : k = k' := hcontra
        rw [hkk]
        exact hk'
    have hlen' : (lastN cap (c ++ [(k, f k)])).length ≤ cap := lastN_length_le _ _
    calc lruFold cap f c (k :: ks')
        = lruFold cap f (lastN cap (c ++ [(k, f k)])) ks' := by
          simp [lruFold, List.foldl_cons, hstep]
      _ = lastN cap (lastN cap (c ++ [(k, f k)]) ++ ks'.map (fun k => (k, f k))) :=
          ih _ hnodup' hfresh' hlen'
      _ = lastN cap ((c ++ [(k, f k)]) ++ ks'.map (fun k => (k, f k))) :=
          lastN_append_lastN _ _ _
      _ = lastN cap (c ++ (k :: ks').map (fun k => (k, f k))) := by
          rw [List.append_assoc]
          rfl

theorem cacheKey_injective : Function.Injective cacheKey := by
  intro a b h
  have hdata : List.replicate (a + 1) 'x' = List.replicate (b + 1) 'x' :=
    congrArg String.data h
  have hlen := congrArg List.length hdata
  simp [List.length_replicate] at hlen
  exact hlen

/-- A row produced by the fixed-width row extractor has some nonempty cell. -/
theorem extractRow_any (spans : List (Nat × Nat × String)) (line : String)
    (r : List String) (h : extractRow spans line = some r) :
    r.any (fun c => c ≠ "") = true := by
  simp only [extractRow] at h
  split at h
  · exact absurd h (by simp)
  · split at h
    · rename_i hany
      cases h
      exact hany
    · exact absurd h (by simp)

/-! ## Claim theorems -/

/-- C1 counterexample: the table whose single original column name is `"9Z"`
is modernized to the resolved name `"9z"`, which does not match
`^[a-z][a-z0-9_]*$` (it starts with a digit) — the dictionary misses, the
heuristic output `"9z"` is rejected by the validator, and the unvalidated
`_to_snake_case` fallback returns `"9z"`, which the final length check keeps. -/
theorem c1_counterexample :
    modernizeColumnNames none none ["9Z"] [[some "1"]] = ["9z"] ∧
      snakeRegexB "9z" = false :=
  ⟨by decide, by decide⟩

/-- C1 (amended): every name accepted by the shared validator matches
`^[a-z][a-z0-9_]*$` and has length between 2 and 40; however,
`modernize_column_name` returns either such a validator-accepted name, or the
unvalidated `_to_snake_case` of the stripped original (which may violate the
pattern, as the counterexample shows), or the placeholder `"unknown_column"`
for blank input. -/
theorem c1_resolved_name_shape :
    (∀ name original : String, validateColumnName name original = true →
        snakeRegexB name = true ∧ 2 ≤ name.length ∧ name.length ≤ 40)
  ∧ (∀ (aiRename : Option (String → Option String)) (col : String),
        validateColumnName (modernizeColumnName aiRename col) (pyStripS col) = true ∨
        modernizeColumnName aiRename col = toSnakeCase (pyStripS col) ∨
        modernizeColumnName aiRename col = "unknown_column") :=
  ⟨validate_accepts_snake, modernize_result_shape⟩

/-- C1 witness: instantiating the validator implication at the accepted name
`"customer_number"` (resolved from `"CUSTNO"`). -/
theorem c1_witness :
    snakeRegexB "customer_number" = true ∧
      2 ≤ ("customer_number" : String).length ∧ ("customer_number" : String).length ≤ 40 :=
  c1_resolved_name_shape.1 "customer_number" "CUSTNO" (by decide)

/-- C2 counterexample: the original columns `"QTY"` and `"qty"` both resolve
to `"qty"` (the dictionary hit `"quantity"` is rejected by the validator
because it contains the banned letter `a`, as is the heuristic expansion, so
both fall back to `_to_snake_case`), and the modernized header list contains
the duplicate unchanged: no positional-suffix repair exists in
`_modernize_column_names`. -/
theorem c2_counterexample :
    modernizeColumnNames none none ["QTY", "qty"] [[some "1"], [some "2"]] = ["qty", "qty"] ∧
      ¬ (["qty", "qty"] : List String).Nodup :=
  ⟨by decide, by decide⟩

/-- C2 (amended): `_modernize_column_names` maps each original column to one
resolved name, preserving the column count, and performs no de-duplication:
distinct original columns may receive identical resolved names, as with
`"AMT"` and `"amt"` both resolving to `"amt"`. -/
theorem c2_no_dedup :
    (∀ (aiRename : Option (String → Option String))
        (aiPredict : Option (List String → Option String))
        (headers : List String) (cols : List (List (Option String))),
        (modernizeColumnNames aiRename aiPredict headers cols).length = headers.length)
  ∧ modernizeColumnNames none none ["AMT", "amt"] [[some "1"], [some "2"]] = ["amt", "amt"] := by
  refine ⟨?_, by decide⟩
  intro aR aP headers cols
  simp [modernizeColumnNames]

/-- C3: resolving `"CUSTNO"` returns `"customer_number"` for every state of
the generative capability — the AS/400 dictionary stage hits, its candidate
passes the validator, and `modernize_column_name` returns before the
generative stage can run. -/
theorem c3_dictionary_determinism :
    ∀ aiRename : Option (String → Option String),
      modernizeColumnName aiRename "CUSTNO" = "customer_number" :=
  fun _ => rfl

/-- C4: fixed-width parsing of the synthetic report whose header line is
`"NAME   AGE  CITY"`: the header is segmented into the whitespace-run spans
`(0,4) (7,10) (12,16)`; parsing recovers exactly these 3 columns with every
data line sliced at those spans (the separator line is skipped, the row whose
cells are all empty is discarded, and the span beyond the end of the short
line `"Jane   31"` yields the empty string); in general a span starting at or
beyond the line end extracts the empty string, and every row kept by the
structured parser has some nonempty cell. -/
theorem c4_fixed_width_roundtrip :
    detectFixedWidthStructure fwReportLines =
      some [(0, 4, "NAME"), (7, 10, "AGE"), (12, 16, "CITY")]
  ∧ parseFixedWidthStructured fwReport =
      some (["NAME", "AGE", "CITY"], [["John", "25", "NYC"], ["Jane", "31", ""]])
  ∧ (∀ (line : List Char) (s e : Nat), line.length ≤ s → extractCell line s e = "")
  ∧ (∀ (content : String) (cols : List String) (rows : List (List String)),
        parseFixedWidthStructured content = some (cols, rows) →
        ∀ r ∈ rows, r.any (fun c => c ≠ "") = true) := by
  refine ⟨by decide, by decide, ?_, ?_⟩
  · intro line s e h
    unfold extractCell
    rw [if_neg (by omega)]
  · intro content cols rows h r hr
    simp only [parseFixedWidthStructured] at h
    split at h
    · exact absurd h (by simp)
    · split at h
      · exact absurd h (by simp)
      · split at h
        · exact absurd h (by simp)
        · rename_i spans _ _
          rw [Option.some_inj] at h
          have hrows : rows = ((pyLines (pyStripS content)).filter (fun l => pyStripS l ≠ "")
              |>.drop (max (findDataStart 0 ((pyLines (pyStripS content)).filter
                (fun l => pyStripS l ≠ ""))) 1)).filterMap (extractRow spans) :=
            (congrArg Prod.snd h).symm
          rw [hrows] at hr
          obtain ⟨line, _, hline⟩ := List.mem_filterMap.mp hr
          exact extractRow_any spans line r hline

/-- C4 witness: the general no-all-empty-rows conjunct instantiated at the
synthetic report's first recovered row. -/
theorem c4_witness :
    (["John", "25", "NYC"] : List String).any (fun c => c ≠ "") = true :=
  c4_fixed_width_roundtrip.2.2.2 fwReport ["NAME", "AGE", "CITY"]
    [["John", "25", "NYC"], ["Jane", "31", ""]] c4_fixed_width_roundtrip.2.1
    ["John", "25", "NYC"] (List.mem_cons_self _ _)

/-- C5: with the sniffer failing (first conjunct) or the sniffed comma
yielding a single column (second conjunct), the fallback list
`[',', '\t', '|', ';', ' ']` is tried in order and the pipe — the only
non-alphanumeric separator of the blob — produces the accepted multi-column
table; the third conjunct shows the pipe is accepted before the also-viable
semicolon, pinning the fallback order. -/
theorem c5_delimiter_fallback :
    detectDelimiterAndReadText none pipeBlob =
      some ⟨["ID", "NAME"], [["1", "JOHN"], ["22", "MARYANNE"]]⟩
  ∧ detectDelimiterAndReadText (some ',') pipeBlob =
      some ⟨["ID", "NAME"], [["1", "JOHN"], ["22", "MARYANNE"]]⟩
  ∧ detectDelimiterAndReadText none pipeSemiBlob =
      some ⟨["A;B", "C"], [["1;2", "3"]]⟩ :=
  ⟨by decide, by decide, by decide⟩

/-- C6 counterexample: on the sample `["active", "12345"]` the counter holds
`status` and `zip_code` with one match each; declaration order puts
`zip_code` (4th pattern) before `status` (10th), yet the prediction is
`"status"`, because `Counter.most_common` breaks the tie by first-match
(insertion) order, not by pattern declaration order. -/
theorem c6_counterexample :
    patternMatchCounts ["active", "12345"] = [("status", 1), ("zip_code", 1)]
  ∧ patternBasedPrediction ["active", "12345"] 0 = "status"
  ∧ patternBasedPrediction ["active", "12345"] 0 ≠ "zip_code"
  ∧ patternList.map Prod.fst =
      ["email", "phone_number", "date", "zip_code", "amount", "price",
       "quantity", "id", "percentage", "status"] :=
  ⟨by decide, by decide, by decide, by decide⟩

/-- C6 (amended): the prediction equals the rule "return the
earliest-recorded pattern among those with the maximal match count when its
count exceeds 30% of the sample size, else the coarse numeric-vs-text label
with the column index" — i.e. ties are broken by first-match (insertion)
order. -/
theorem c6_amended_insertion_tiebreak :
    ∀ (sample : List String) (i : Nat),
      patternBasedPrediction sample i = amendedPrediction sample i := by
  intro sample i
  simp only [patternBasedPrediction, amendedPrediction, mostCommon1_eq_findMax]

/-- C7 counterexample: resolving 1025 pairwise-distinct column names through
the `lru_cache(maxsize=1024)`-modelled cache evicts the first name's entry —
the cache is not append-only and entries are evicted. -/
theorem c7_counterexample :
    (lruFold modernizeCacheCap (modernizeColumnName none) [] evictKeys).find?
      (fun p => p.1 == cacheKey 0) = none := by
  have hnodup : evictKeys.Nodup :=
    (List.nodup_range _).map cacheKey_injective
  have hkeys : evictKeys =
      cacheKey 0 :: (List.range modernizeCacheCap).map (fun j => cacheKey (j + 1)) := by
    unfold evictKeys
    rw [List.range_succ_eq_map]
    simp [List.map_map]
  have hrun := lruFold_all_misses modernizeCacheCap (modernizeColumnName none) evictKeys []
    hnodup (by intro k _ p hp; simp at hp) (by simp)
  rw [hrun, List.nil_append]
  have hlen : (evictKeys.map (fun k => (k, modernizeColumnName none k))).length =
      modernizeCacheCap + 1 := by
    simp [evictKeys]
  rw [lastN, hlen]
  have h1 : modernizeCacheCap + 1 - modernizeCacheCap = 1 := by omega
  rw [h1, List.find?_eq_none]
  intro p hp
  rw [hkeys] at hp
  simp only [List.map_cons, List.drop_succ_cons, List.drop_zero, List.map_map] at hp
  obtain ⟨j, hj, hpj⟩ := List.mem_map.mp hp
  simp only [beq_iff_eq]
  rw [← hpj]
  intro hcontra
  have hj0 : j + 1 = 0 := cacheKey_injective hcontra
  omega

/-- C7 (amended): while an entry for a name is cached, a later resolution of
that exact name returns the stored mapping without invoking the resolution
pipeline (the result is independent of the computing function), and the cache
never holds more than its 1024-entry capacity — beyond it, least-recently-used
entries are evicted (see the counterexample). -/
theorem c7_amended_lru_bound :
    (∀ (c : List (String × String)) (k : String) (p : String × String)
        (f g : String → String),
        c.find? (fun q => q.1 == k) = some p →
        (lruAccess modernizeCacheCap c k f).1 = p.2 ∧
        (lruAccess modernizeCacheCap c k f).1 = (lruAccess modernizeCacheCap c k g).1)
  ∧ (∀ (c : List (String × String)) (k : String) (f : String → String),
        c.length ≤ modernizeCacheCap →
        ((lruAccess modernizeCacheCap c k f).2).length ≤ modernizeCacheCap) := by
  constructor
  · intro c k p f g h
    constructor
    · rw [lruAccess, h]
    · rw [lruAccess, lruAccess, h]
  · intro c k f hlen
    cases hfind : c.find? (fun q => q.1 == k) with
    | some p =>
      have hlt : (c.filter (fun q => !(q.1 == k))).length < c.length := by
        rw [List.length_filter_lt_length_iff_exists]
        refine ⟨p, List.mem_of_find?_eq_some hfind, ?_⟩
        have := List.find?_some hfind
        simp [this]
      simp only [lruAccess, hfind, List.length_append, List.length_cons, List.length_nil]
      omega
    | none =>
      simp only [lruAccess, hfind, lruPut_eq_lastN]
      exact lastN_length_le _ _

/-- C7 witness: a cache holding the `CUSTNO` mapping answers a repeat
resolution of `"CUSTNO"` from the stored entry, for any computing function. -/
theorem c7_witness :
    (lruAccess modernizeCacheCap [("CUSTNO", "customer_number")] "CUSTNO"
      (fun _ => "")).1 = "customer_number" :=
  (c7_amended_lru_bound.1 [("CUSTNO", "customer_number")] "CUSTNO"
    ("CUSTNO", "customer_number") (fun _ => "") (fun _ => "other") (by decide)).1

/-- C8: `safe_decode` is a total function on byte sequences (its Lean type),
and follows the claimed policy for every behaviour of the external detector
and decoder: a successful detection and decode returns the decoded text under
the detected (or defaulted) encoding; a raising detection, and a raising
decode after successful detection, both fall back to the lossy UTF-8 decode
of the raw bytes; a missing or empty detected encoding label defaults to
`"utf-8"`. -/
theorem c8_safe_decode_policy :
    (∀ (detect : List Nat → Except Unit (Option String))
        (decodeIgn : String → List Nat → Except Unit String)
        (utf8Ign : List Nat → String) (raw : List Nat) (enc : Option String) (s : String),
        detect raw = Except.ok enc → decodeIgn (encOrDefault enc) raw = Except.ok s →
        safeDecode detect decodeIgn utf8Ign raw = s)
  ∧ (∀ (detect : List Nat → Except Unit (Option String))
        (decodeIgn : String → List Nat → Except Unit String)
        (utf8Ign : List Nat → String) (raw : List Nat) (e : Unit),
        detect raw = Except.error e →
        safeDecode detect decodeIgn utf8Ign raw = utf8Ign raw)
  ∧ (∀ (detect : List Nat → Except Unit (Option String))
        (decodeIgn : String → List Nat → Except Unit String)
        (utf8Ign : List Nat → String) (raw : List Nat) (enc : Option String) (e : Unit),
        detect raw = Except.ok enc → decodeIgn (encOrDefault enc) raw = Except.error e →
        safeDecode detect decodeIgn utf8Ign raw = utf8Ign raw)
  ∧ (∀ o : Option String, o = none ∨ o = some "" → encOrDefault o = "utf-8") := by
  refine ⟨?_, ?_, ?_, ?_⟩
  · intro detect dec u raw enc s h1 h2
    simp only [safeDecode, h1, h2]
  · intro detect dec u raw e h1
    simp only [safeDecode, h1]
  · intro detect dec u raw enc e h1 h2
    simp only [safeDecode, h1, h2]
  · intro o h
    rcases h with h | h <;> subst h <;> rfl

/-- C8 witness: a detector that raises on the byte `255` makes `safe_decode`
return the UTF-8 lossy fallback. -/
theorem c8_witness :
    safeDecode (fun _ => Except.error ()) (fun _ _ => Except.ok "")
      (fun _ => "fallback") [255] = "fallback" :=
  c8_safe_decode_policy.2.1 (fun _ => Except.error ()) (fun _ _ => Except.ok "")
    (fun _ => "fallback") [255] () rfl

/-- C9: when the header list is empty, or no row survives the all-null-row
removal, the post-parse stage of `process_file` fails with one of the two
fatal errors — both surfaced as HTTP 400 client-input errors — instead of
returning a table. -/
theorem c9_empty_result_error :
    ∀ (aiRename : Option (String → Option String))
      (aiPredict : Option (List String → Option String))
      (headers : List String) (rows : List (List (Option String))),
      headers = [] ∨ rows.filter rowNonEmpty = [] →
      ∃ e : ProcessError,
        processParsedTable aiRename aiPredict headers rows = Except.error e ∧
          processErrorStatus e = 400 := by
  intro aR aP headers rows h
  by_cases hre : headers.isEmpty ∨ rows.isEmpty
  · refine ⟨ProcessError.noDataFound, ?_, rfl⟩
    simp only [processParsedTable]
    rw [if_pos hre]
  · refine ⟨ProcessError.noValidDataRows, ?_, rfl⟩
    have hfe : (rows.filter rowNonEmpty).isEmpty := by
      rcases h with hh | hr
      · exact absurd (Or.inl (by simp [hh])) hre
      · simp [hr]
    simp only [processParsedTable]
    rw [if_neg hre, if_pos hfe]

/-- C9 witness: a one-column table whose only row is entirely null is
rejected with a 400-status error after empty-row removal. -/
theorem c9_witness :
    ∃ e : ProcessError,
      processParsedTable none none ["A"] [[none]] = Except.error e ∧
        processErrorStatus e = 400 :=
  c9_empty_result_error none none ["A"] [[none]] (Or.inr (by decide))

/-- C10: the validator's banned-pattern check is an unanchored substring
search, so any candidate containing the letter `a` (case-insensitively) — or
any of the substrings `the`, `an`, `column`, `field`, `value`, `name`,
`legacy`, `original`, `old` — is rejected; consequently the dictionary
candidates `"address_line_1"` (for `"ADDR1"`) and `"hire_date"` (for
`"HIREDATE"`) can never be accepted, and the pipeline falls through to the
unvalidated snake-case fallback, returning `"addr1"` and `"hiredate"`. -/
theorem c10_validator_substring_rejection :
    (∀ name original : String,
        (hasInfix (pyLower name).data "a".data = true ∨
         hasInfix (pyLower name).data "the".data = true ∨
         hasInfix (pyLower name).data "an".data = true ∨
         hasInfix (pyLower name).data "column".data = true ∨
         hasInfix (pyLower name).data "field".data = true ∨
         hasInfix (pyLower name).data "value".data = true ∨
         hasInfix (pyLower name).data "name".data = true ∨
         hasInfix (pyLower name).data "legacy".data = true ∨
         hasInfix (pyLower name).data "original".data = true ∨
         hasInfix (pyLower name).data "old".data = true) →
        validateColumnName name original = false)
  ∧ modernizeColumnName none "ADDR1" = "addr1"
  ∧ modernizeColumnName none "HIREDATE" = "hiredate" := by
  refine ⟨?_, by decide, by decide⟩
  intro name original h
  have hany : bannedSubstrings.any (fun b => hasInfix (pyLower name).data b.data) = true := by
    rw [List.any_eq_true]
    rcases h with h | h | h | h | h | h | h | h | h | h
    · exact ⟨"a", by decide, h⟩
    · exact ⟨"the", by decide, h⟩
    · exact ⟨"an", by decide, h⟩
    · exact ⟨"column", by decide, h⟩
    · exact ⟨"field", by decide, h⟩
    · exact ⟨"value", by decide, h⟩
    · exact ⟨"name", by decide, h⟩
    · exact ⟨"legacy", by decide, h⟩
    · exact ⟨"original", by decide, h⟩
    · exact ⟨"old", by decide, h⟩
  unfold validateColumnName
  by_cases h0 : name = "" ∨ name.length < 2 ∨ 40 < name.length
  · rw [if_pos h0]
  · rw [if_neg h0, if_pos hany]

/-- C10 witness: the banned-substring implication instantiated at the
dictionary candidate `"address_line_1"`, which contains the letter `a`. -/
theorem c10_witness :
    validateColumnName "address_line_1" "ADDR1" = false :=
  c10_validator_substring_rejection.1 "address_line_1" "ADDR1" (Or.inl (by decide))

end Modernizer



